import Mathlib

/-!
Shallow embedding of `ig_scraper.py`: the Instagram handle-resolution
pipeline.  The embedding covers query construction (`build_google_query`),
the provider fetch chain with backoff (`fetch_html` over the two provider
oracles), candidate extraction (`parse_google_results`), profile
validation (`validate_profile`), per-row resolution (`process_row`), the
optional relational upsert, and the resumable main loop with its
interrupt behaviour.  Python strings are modelled at the ASCII level
(`str.lower`, `urllib` quoting); network responses are supplied by
oracles threaded through an explicit state, and every side effect
(provider call, sleep, record write) is recorded in an event trace.
-/

namespace IgScraper

/-- Model of Python `str.lower` (ASCII: `A`-`Z` map to `a`-`z`). -/
def pyLower (s : String) : String := String.mk (s.data.map Char.toLower)

/-- Boolean test that the first list is an initial segment of the second. -/
def listPrefixB : List Char → List Char → Bool
  | [], _ => true
  | _ :: _, [] => false
  | a :: as, b :: bs => a == b && listPrefixB as bs

/-- Boolean contiguous-sublist test: model of Python `needle in hay`. -/
def listInfixB (n : List Char) : List Char → Bool
  | [] => n.isEmpty
  | c :: t => listPrefixB n (c :: t) || listInfixB n t

/-- Python `needle in hay` on strings. -/
def substrB (needle hay : String) : Bool := listInfixB needle.data hay.data

/-- The characters `urllib.parse.quote` never encodes
(ASCII letters, digits, `_`, `.`, `-`, `~`). -/
def alwaysSafe (c : Char) : Bool :=
  c.isAlpha || c.isDigit || c == '_' || c == '.' || c == '-' || c == '~'

/-- Uppercase hexadecimal digit character of `n < 16`. -/
def hexDigit (n : Nat) : Char :=
  if n < 10 then Char.ofNat (48 + n) else Char.ofNat (55 + n)

/-- UTF-8 byte sequence of a character. -/
def utf8Bytes (c : Char) : List Nat :=
  if c.toNat < 128 then [c.toNat]
  else if c.toNat < 2048 then [192 + c.toNat / 64, 128 + c.toNat % 64]
  else if c.toNat < 65536 then
    [224 + c.toNat / 4096, 128 + c.toNat / 64 % 64, 128 + c.toNat % 64]
  else
    [240 + c.toNat / 262144, 128 + c.toNat / 4096 % 64,
     128 + c.toNat / 64 % 64, 128 + c.toNat % 64]

/-- `%XX` escape of one byte, uppercase hex. -/
def pctByte (b : Nat) : List Char := ['%', hexDigit (b / 16), hexDigit (b % 16)]

/-- Encoding of a single character under `quote_plus(..., safe="")`. -/
def quoteChar (c : Char) : List Char :=
  if alwaysSafe c then [c]
  else if c == ' ' then ['+']
  else (utf8Bytes c).flatMap pctByte

/-- Model of `urllib.parse.quote_plus(term, safe="")`: always-safe
characters pass through unchanged, a space becomes `+`, every other
character is percent-encoded byte by byte. -/
def quote_plus (s : String) : String :=
  String.mk (s.data.flatMap quoteChar)

/-- `build_google_query` from the source: quote the whole search term. -/
def build_google_query (first last school : String) : String :=
  quote_plus ("\"" ++ first ++ " " ++ last ++ "\" \"" ++ school ++
    "\" site:instagram.com -site:instagram.com/p")

/-- Value of a hexadecimal digit character, if any. -/
def hexVal (c : Char) : Option Nat :=
  if '0' ≤ c ∧ c ≤ '9' then some (c.toNat - 48)
  else if 'a' ≤ c ∧ c ≤ 'f' then some (c.toNat - 87)
  else if 'A' ≤ c ∧ c ≤ 'F' then some (c.toNat - 55)
  else none

/-- Model of `urllib.parse.unquote_plus` at the byte/ASCII level: `+`
becomes a space and a valid `%XX` escape becomes the character with code
`XX`; invalid escapes stay literal.  (Multi-byte UTF-8 escape sequences
are not recombined; the pipeline only exercises ASCII payloads.) -/
def unquotePlusAux : List Char → List Char
  | [] => []
  | '+' :: rest => ' ' :: unquotePlusAux rest
  | '%' :: a :: b :: rest =>
    match hexVal a, hexVal b with
    | some x, some y => Char.ofNat (16 * x + y) :: unquotePlusAux rest
    | _, _ => '%' :: unquotePlusAux (a :: b :: rest)
  | c :: rest => c :: unquotePlusAux rest

def unquote_plus (s : String) : String := String.mk (unquotePlusAux s.data)

/-- The query component of a URL reference, as `urllib.parse.urlparse`
extracts it: the text after the first `?` of the fragment-free part. -/
def urlQueryOf (href : String) : List Char :=
  match (href.data.takeWhile (fun c => c != '#')).dropWhile (fun c => c != '?') with
  | [] => []
  | _ :: t => t

/-- Split a character list on `&`, as Python `str.split('&')` does. -/
def splitAmp : List Char → List (List Char)
  | [] => [[]]
  | '&' :: rest => [] :: splitAmp rest
  | c :: rest =>
    match splitAmp rest with
    | [] => [[c]]
    | g :: gs => (c :: g) :: gs

/-- One `name=value` field of a query string, as `parse_qsl` with
`keep_blank_values=False` treats it: fields without `=` or with an empty
value are dropped; name and value are `unquote_plus`-decoded. -/
def pairOf (f : List Char) : Option (String × String) :=
  match f.dropWhile (fun c => c != '=') with
  | [] => none
  | _ :: v =>
    if v.isEmpty then none
    else some (String.mk (unquotePlusAux (f.takeWhile (fun c => c != '='))),
               String.mk (unquotePlusAux v))

/-- First decoded value bound to parameter name `q`, i.e. the model of
`parse_qs(query).get("q", [""])[0]`. -/
def getQ : List (List Char) → String
  | [] => ""
  | f :: rest =>
    match pairOf f with
    | some (n, v) => if n = "q" then v else getQ rest
    | none => getQ rest

/-- The decoded `q` query parameter of an href. -/
def qParamOf (href : String) : String := getQ (splitAmp (urlQueryOf href))

/-- One anchor's contribution to `parse_google_results`: hrefs starting
with the internal redirect prefix `/url?` whose decoded `q` parameter
contains `instagram.com`. -/
def candidateOf (href : String) : Option String :=
  if listPrefixB "/url?".data href.data then
    if substrB "instagram.com" (qParamOf href) then some (qParamOf href)
    else none
  else none

/-- The `parse_google_results` accumulation loop: scan anchors in page
order, append each candidate, and break as soon as five links have been
collected (`n` counts links already collected). -/
def pgrAux : List String → Nat → List String
  | [], _ => []
  | href :: rest, n =>
    match candidateOf href with
    | some q => if 5 ≤ n + 1 then [q] else q :: pgrAux rest (n + 1)
    | none => if 5 ≤ n then [] else pgrAux rest n

/-- `parse_google_results` from the source, over the ordered list of
anchor hrefs found in the page.  The third-party lenient HTML parser
(`BeautifulSoup(html, "html.parser").select("a")`, which never raises) is
abstracted as the ordered href list it produces. -/
def parse_google_results (hrefs : List String) : List String := pgrAux hrefs 0

/-- An HTTP response: status code, body text, and final resolved URL. -/
structure Response where
  status_code : Nat
  text : String
  url : String
deriving DecidableEq

/-- `requests.Response.ok` (also the truthiness of a `Response`):
status code below 400. -/
def Response.ok (r : Response) : Bool := r.status_code < 400

/-- One observable side effect of the pipeline. -/
inductive Event
  | sleep (seconds : Nat)
  | sbCall (url : String)
  | brCall (url : String)
deriving DecidableEq

/-- `REQUEST_DELAY` from the source, in seconds. -/
def REQUEST_DELAY : Nat := 1

/-- The process environment: configured provider keys, network oracles
giving the outcome of each successive low-level provider request (`none`
models a raised transport exception), and the abstract lenient HTML
parser (`BeautifulSoup`), given as the ordered anchor-href list it
extracts from a page. -/
structure Env where
  sbKey : Bool
  brightKey : Bool
  sb : Nat → Option Response
  bright : Nat → Option Response
  anchors : String → List String

/-- Network state: how many requests each provider oracle has consumed. -/
structure St where
  sbN : Nat
  brN : Nat
deriving DecidableEq

/-- `fetch_scrapingbee` wrapped in its tenacity policy
(`stop_after_attempt(3)`, `wait_fixed(1)`): a raised exception (missing
key, or a transport error modelled by oracle `none`) is retried after a
fixed one-second wait, up to three attempts in all; any HTTP response —
whatever its status — is returned as-is.  `fuel` is the number of
attempts left. -/
def sbRetry (env : Env) (url : String) : Nat → St → Option Response × St × List Event
  | 0, st => (none, st, [])
  | fuel + 1, st =>
    if env.sbKey then
      match env.sb st.sbN with
      | some r => (some r, ⟨st.sbN + 1, st.brN⟩, [Event.sbCall url])
      | none =>
        if fuel = 0 then (none, ⟨st.sbN + 1, st.brN⟩, [Event.sbCall url])
        else
          let p := sbRetry env url fuel ⟨st.sbN + 1, st.brN⟩
          (p.1, p.2.1, Event.sbCall url :: Event.sleep 1 :: p.2.2)
    else
      if fuel = 0 then (none, st, [])
      else
        let p := sbRetry env url fuel st
        (p.1, p.2.1, Event.sleep 1 :: p.2.2)

/-- The decorated `fetch_scrapingbee` entry point (three attempts). -/
def fetch_scrapingbee (env : Env) (st : St) (url : String) :
    Option Response × St × List Event :=
  sbRetry env url 3 st

/-- `fetch_bright`: raises when the BrightData key is missing, otherwise
one proxied request via the oracle. -/
def fetch_bright (env : Env) (st : St) (url : String) :
    Option Response × St × List Event :=
  if env.brightKey then
    (env.bright st.brN, ⟨st.sbN, st.brN + 1⟩, [Event.brCall url])
  else (none, st, [])

/-- The ScrapingBee loop inside `fetch_html`: up to `fuel` (2) outer
attempts.  A 429 sleeps the current exponential `delay`, doubles it and
retries; a 2xx/3xx response returns immediately; anything else
(exception or other status) sleeps the politeness delay and retries. -/
def fetchHtmlLoop (env : Env) (url : String) :
    Nat → Nat → St → Option Response × St × List Event
  | _, 0, st => (none, st, [])
  | delay, fuel + 1, st =>
    let a := fetch_scrapingbee env st url
    match a.1 with
    | some r =>
      if r.status_code == 429 then
        let p := fetchHtmlLoop env url (delay * 2) fuel a.2.1
        (p.1, p.2.1, a.2.2 ++ Event.sleep delay :: p.2.2)
      else if r.ok then (some r, a.2.1, a.2.2)
      else
        let p := fetchHtmlLoop env url delay fuel a.2.1
        (p.1, p.2.1, a.2.2 ++ Event.sleep REQUEST_DELAY :: p.2.2)
    | none =>
      let p := fetchHtmlLoop env url delay fuel a.2.1
      (p.1, p.2.1, a.2.2 ++ Event.sleep REQUEST_DELAY :: p.2.2)

/-- `fetch_html` from the source: two ScrapingBee outer attempts (when
its key is configured, starting delay 1) then a single BrightData
fallback; `none` when both paths fail.  Only `ok` responses are ever
returned. -/
def fetch_html (env : Env) (st : St) (url : String) :
    Option Response × St × List Event :=
  let a := if env.sbKey then fetchHtmlLoop env url 1 2 st else (none, st, [])
  match a.1 with
  | some r => (some r, a.2.1, a.2.2)
  | none =>
    let b := fetch_bright env a.2.1 url
    match b.1 with
    | some r =>
      if r.ok then (some r, b.2.1, a.2.2 ++ b.2.2)
      else (none, b.2.1, a.2.2 ++ b.2.2)
    | none => (none, b.2.1, a.2.2 ++ b.2.2)

/-- A capture-group character of `IG_PROFILE_RE`: `[A-Za-z0-9._]`. -/
def handleChar (c : Char) : Bool := c.isAlpha || c.isDigit || c == '.' || c == '_'

/-- Strip a literal pattern (given lowercase) case-insensitively. -/
def stripCI : List Char → List Char → Option (List Char)
  | [], s => some s
  | _ :: _, [] => none
  | p :: ps, c :: cs => if c.toLower == p then stripCI ps cs else none

/-- Try `IG_PROFILE_RE` (`https?://(?:www\.)?instagram\.com/([A-Za-z0-9._]+)/?`,
case-insensitive) at the head of `s`; on success return capture group 1,
the maximal run of handle characters after `instagram.com/`.  The two
optional pieces (`s?`, `(?:www\.)?`) need no backtracking: when the
preferred alternative consumes input but the continuation fails, the
shorter alternative fails on the same input as well. -/
def igMatchAt (s : List Char) : Option String :=
  match stripCI "http".data s with
  | none => none
  | some s1 =>
    match (match stripCI "s://".data s1 with
           | some r => some r
           | none => stripCI "://".data s1) with
    | none => none
    | some s2 =>
      match stripCI "instagram.com/".data
          (match stripCI "www.".data s2 with
           | some r => r
           | none => s2) with
      | none => none
      | some s4 =>
        match s4.takeWhile handleChar with
        | [] => none
        | h => some (String.mk h)

/-- `IG_PROFILE_RE.search`: the match at the leftmost position where the
pattern matches, with the greedy capture taken there. -/
def igSearchAux : List Char → Option String
  | [] => none
  | c :: cs =>
    match igMatchAt (c :: cs) with
    | some h => some h
    | none => igSearchAux cs

def igSearch (s : String) : Option String := igSearchAux s.data

/-- The body of `validate_profile` after the fetch produced a status-200
response: structural marker check on the lowercased HTML, handle
extraction from the final resolved URL, private-account detection, and
canonical URL construction. -/
def validateResp (r : Response) : Option String × String × String :=
  if !substrB "property=\"og:type\"" (pyLower r.text) ||
     !substrB "content=\"profile\"" (pyLower r.text) then
    (none, "NOT_FOUND", "")
  else
    match igSearch r.url with
    | none => (none, "NOT_FOUND", "")
    | some m =>
      (some (pyLower m),
       (if substrB "this account is private" (pyLower r.text)
        then "FOUND_PRIVATE" else "FOUND_VALID"),
       ("https://instagram.com/" ++ pyLower m))

/-- `validate_profile` from the source: fetch the candidate URL through
the provider chain and classify it.  (`not resp` in the source is the
`Response` truthiness, i.e. `resp.ok`.) -/
def validate_profile (env : Env) (st : St) (url : String) :
    (Option String × String × String) × St × List Event :=
  let f := fetch_html env st url
  match f.1 with
  | none => ((none, "NOT_FOUND", ""), f.2.1, f.2.2)
  | some r =>
    if !r.ok || r.status_code != 200 then ((none, "NOT_FOUND", ""), f.2.1, f.2.2)
    else (validateResp r, f.2.1, f.2.2)

/-- One input row: mandatory identity columns plus optional
pre-populated enrichment columns (`none` models an absent column). -/
structure Row where
  athlete_id : Int
  first_name : String
  last_name : String
  school : String
  claim_score : Option Int := none
  instagram_handle : Option String := none
  profile_url : Option String := none
  status : Option String := none
deriving DecidableEq

/-- The `Athlete` output dataclass. -/
structure Athlete where
  athlete_id : Int
  first_name : String
  last_name : String
  school : String
  claim_score : Int
  instagram_handle : String := ""
  profile_url : String := ""
  status : String := ""
deriving DecidableEq

/-- Python truthiness of `row.get(col)` for a string column: present and
non-empty. -/
def truthy : Option String → Bool
  | none => false
  | some s => s != ""

/-- The base `Athlete` constructed at the top of `process_row`. -/
def athleteOf (row : Row) : Athlete :=
  { athlete_id := row.athlete_id
    first_name := row.first_name
    last_name := row.last_name
    school := row.school
    claim_score := row.claim_score.getD 0 }

/-- The Google search URL issued for a row. -/
def searchUrlOf (row : Row) : String :=
  "https://www.google.com/search?q=" ++
    build_google_query row.first_name row.last_name row.school ++ "&num=5"

/-- The candidate-validation loop of `process_row`: validate candidates
in order, sleeping the politeness delay after every attempt, and stop at
the first truthy handle. -/
def validateLoop (env : Env) : List String → St →
    Option (String × String × String) × St × List Event
  | [], st => (none, st, [])
  | link :: rest, st =>
    let v := validate_profile env st link
    match v.1.1 with
    | some h =>
      if h == "" then
        let p := validateLoop env rest v.2.1
        (p.1, p.2.1, v.2.2 ++ Event.sleep REQUEST_DELAY :: p.2.2)
      else
        (some (h, v.1.2.1, v.1.2.2), v.2.1, v.2.2 ++ [Event.sleep REQUEST_DELAY])
    | none =>
      let p := validateLoop env rest v.2.1
      (p.1, p.2.1, v.2.2 ++ Event.sleep REQUEST_DELAY :: p.2.2)

/-- `process_row` from the source: short-circuit on a truthy
pre-populated handle, otherwise search, extract candidates, and validate
them first-match-wins. -/
def process_row (env : Env) (st : St) (row : Row) : Athlete × St × List Event :=
  if truthy row.instagram_handle then
    ({ athleteOf row with
        instagram_handle := pyLower (row.instagram_handle.getD "")
        profile_url := row.profile_url.getD ""
        status := row.status.getD "FOUND_VALID" }, st, [])
  else
    let f := fetch_html env st (searchUrlOf row)
    match f.1 with
    | none => ({ athleteOf row with status := "SEARCH_FAIL" }, f.2.1, f.2.2)
    | some resp =>
      if !resp.ok || resp.status_code != 200 then
        ({ athleteOf row with status := "SEARCH_FAIL" }, f.2.1, f.2.2)
      else
        let v := validateLoop env (parse_google_results (env.anchors resp.text)) f.2.1
        match v.1 with
        | some trip =>
          ({ athleteOf row with
              instagram_handle := trip.1, profile_url := trip.2.2,
              status := trip.2.1 },
           v.2.1, f.2.2 ++ v.2.2)
        | none =>
          ({ athleteOf row with status := "NOT_FOUND" }, v.2.1, f.2.2 ++ v.2.2)

/-- The four defined resolution statuses. -/
def statusFour (s : String) : Prop :=
  s = "FOUND_VALID" ∨ s = "FOUND_PRIVATE" ∨ s = "NOT_FOUND" ∨ s = "SEARCH_FAIL"

instance (s : String) : Decidable (statusFour s) := by
  unfold statusFour; infer_instance

/-- The output-record invariant of the spec: status is one of the four
defined values, and the handle is non-empty iff the status is
`FOUND_VALID` or `FOUND_PRIVATE`. -/
def recordInvariant (a : Athlete) : Prop :=
  statusFour a.status ∧
    (a.instagram_handle ≠ "" ↔
      (a.status = "FOUND_VALID" ∨ a.status = "FOUND_PRIVATE"))

instance (a : Athlete) : Decidable (recordInvariant a) := by
  unfold recordInvariant; infer_instance

/-- The extraction stage of the validator as the spec describes it
(handle from the final resolved URL, privacy-phrase check, canonical URL
construction), written separately from `validateResp` so that the
marker-gate structure can be stated about the source function. -/
def extractStage (r : Response) : Option String × String × String :=
  match igSearch r.url with
  | none => (none, "NOT_FOUND", "")
  | some m =>
    (some (pyLower m),
     (if substrB "this account is private" (pyLower r.text)
      then "FOUND_PRIVATE" else "FOUND_VALID"),
     ("https://instagram.com/" ++ pyLower m))

/-- An environment with no provider keys and no network: every fetch
fails.  Used where a claim's branch never consults the network. -/
def env0 : Env :=
  { sbKey := false, brightKey := false, sb := fun _ => none,
    bright := fun _ => none, anchors := fun _ => [] }

/-- The initial oracle state. -/
def st0 : St := ⟨0, 0⟩

/-- A partially-enriched input row whose pre-populated status column is
present but blank. -/
def rowC1 : Row :=
  { athlete_id := 1, first_name := "Jane", last_name := "Doe",
    school := "State U", instagram_handle := some "janedoe",
    profile_url := some "https://instagram.com/janedoe", status := some "" }

/-- A pre-populated input row whose handle contains uppercase letters. -/
def rowC2 : Row :=
  { athlete_id := 2, first_name := "Jane", last_name := "Doe",
    school := "State U", instagram_handle := some "JaneDoe",
    profile_url := some "https://instagram.com/janedoe",
    status := some "FOUND_VALID" }

/-- A plain roster row with no pre-populated enrichment columns. -/
def rowPlain : Row :=
  { athlete_id := 3, first_name := "Jane", last_name := "Doe",
    school := "State U" }

/-- A profile page body carrying the `og:type` marker but not the
`content="profile"` marker. -/
def docC3 : String := "<meta property=\"og:type\" content=\"article\">"

/-- Environment whose single (BrightData) fetch returns a 200 document
containing exactly one of the two profile markers, with a final URL from
which a handle is extractable. -/
def envC3 : Env :=
  { sbKey := false, brightKey := true, sb := fun _ => none,
    bright := fun _ => some ⟨200, docC3, "https://instagram.com/janedoe"⟩,
    anchors := fun _ => [] }

/-- A 200 document carrying both profile markers. -/
def docProfile : String := "<meta property=\"og:type\" content=\"profile\">"

/-- Environment whose single fetch returns a valid profile document. -/
def envC3w : Env :=
  { sbKey := false, brightKey := true, sb := fun _ => none,
    bright := fun _ => some ⟨200, docProfile, "https://instagram.com/janedoe"⟩,
    anchors := fun _ => [] }

/-- Environment where ScrapingBee always answers 429 and BrightData
succeeds. -/
def envC5 : Env :=
  { sbKey := true, brightKey := true,
    sb := fun _ => some ⟨429, "", ""⟩,
    bright := fun _ => some ⟨200, "body", "u"⟩, anchors := fun _ => [] }

/-- Environment whose single fetch yields a redirect (non-200 but `ok`)
response for any URL: the search fetch "succeeds" with a non-200 status. -/
def envC6 : Env :=
  { sbKey := false, brightKey := true, sb := fun _ => none,
    bright := fun _ => some ⟨301, "moved", ""⟩, anchors := fun _ => [] }

/-- Result of one `upsert_postgres` call.  In the source only the
`import psycopg2` is guarded (`skipped`, logged); a failure of
`psycopg2.connect` or of the queries raises out of the function —
nothing else is caught there or in `main`'s `except GracefulExit`. -/
inductive UpsertResult
  | skipped
  | done
  | raised
deriving DecidableEq

/-- `upsert_postgres` over a given driver availability and connection
outcome. -/
def upsert_postgres (driver connectOk : Bool) : UpsertResult :=
  if !driver then UpsertResult.skipped
  else if !connectOk then UpsertResult.raised
  else UpsertResult.done

/-- Sink configuration of a run: whether `--dsn` was supplied, whether
the driver imports, whether connecting to the target succeeds. -/
structure SinkCfg where
  dsn : Bool
  driver : Bool
  connectOk : Bool
deriving DecidableEq

/-- The `main` loop with the optional relational sink: per unskipped
row, `process_row`, then `write_results` (the append), then — when a
DSN was supplied — `upsert_postgres`.  Returns the appended records and
whether the run aborted on an exception other than `GracefulExit`
(which the `try`/`except GracefulExit` does not catch). -/
def mainLoopSink (env : Env) (cfg : SinkCfg) (done : List Int) :
    List Row → St → List Athlete × Bool
  | [], _ => ([], false)
  | row :: rest, st =>
    if row.athlete_id ∈ done then mainLoopSink env cfg done rest st
    else
      let a := (process_row env st row).1
      let st1 := (process_row env st row).2.1
      if cfg.dsn then
        match upsert_postgres cfg.driver cfg.connectOk with
        | UpsertResult.raised => ([a], true)
        | _ =>
          let p := mainLoopSink env cfg done rest st1
          (a :: p.1, p.2)
      else
        let p := mainLoopSink env cfg done rest st1
        (a :: p.1, p.2)

/-- One atomic action of the main loop, at the granularity at which the
Python runtime can observe a pending interrupt (the SIGINT handler
raises `GracefulExit` at the current execution point, not at the top of
the loop). -/
inductive Act
  | ev (e : Event)
  | write (a : Athlete)
deriving DecidableEq

/-- The action sequence of one processed row: the resolution's own
events, then the `write_results` append, then the end-of-iteration
politeness sleep. -/
def rowActs (env : Env) (st : St) (row : Row) : List Act :=
  ((process_row env st row).2.2).map Act.ev ++
    [Act.write (process_row env st row).1, Act.ev (Event.sleep REQUEST_DELAY)]

/-- The action sequence of a full (no-sink) run: rows whose id is in
the resume set `done` are skipped entirely. -/
def runActs (env : Env) (done : List Int) : List Row → St → List Act
  | [], _ => []
  | row :: rest, st =>
    if row.athlete_id ∈ done then runActs env done rest st
    else
      rowActs env st row ++ runActs env done rest ((process_row env st row).2.1)

/-- The records appended by a sequence of executed actions. -/
def writesOf (acts : List Act) : List Athlete :=
  acts.filterMap fun a =>
    match a with
    | Act.write r => some r
    | Act.ev _ => none

/-- The output records of a completed, uninterrupted run. -/
def runRecords (env : Env) (done : List Int) (rows : List Row) (st : St) :
    List Athlete :=
  writesOf (runActs env done rows st)

/-- The output records when an interrupt arrives at action boundary
`n`: the handler raises `GracefulExit` there, `main`'s
`except GracefulExit` catches it, so exactly the first `n` actions have
executed. -/
def runInterrupted (env : Env) (done : List Int) (rows : List Row) (st : St)
    (n : Nat) : List Athlete :=
  writesOf ((runActs env done rows st).take n)

/-- A pre-populated row used as first input of the sink run. -/
def rowC4a : Row :=
  { athlete_id := 10, first_name := "Alpha", last_name := "One",
    school := "State U", instagram_handle := some "alpha",
    profile_url := some "https://instagram.com/alpha",
    status := some "FOUND_VALID" }

/-- A pre-populated row used as second input of the sink run. -/
def rowC4b : Row :=
  { athlete_id := 11, first_name := "Beta", last_name := "Two",
    school := "State U", instagram_handle := some "beta",
    profile_url := some "https://instagram.com/beta",
    status := some "FOUND_VALID" }

/-- Formalisation of the claim "every character of the term is
percent-encoded": the output consists solely of `%XX` escapes, so every
character is `%` or an uppercase hexadecimal digit. -/
def percentEncodedChar (c : Char) : Prop :=
  c = '%' ∨ ('0' ≤ c ∧ c ≤ '9') ∨ ('A' ≤ c ∧ c ≤ 'F')

instance (c : Char) : Decidable (percentEncodedChar c) := by
  unfold percentEncodedChar; infer_instance

end IgScraper

namespace IgScraper

lemma char_toNat_lt (c : Char) : c.toNat < 1114112 := by
  have h : c.val.toNat < 55296 ∨ (57343 < c.val.toNat ∧ c.val.toNat < 1114112) :=
    c.valid
  rcases h with h | ⟨_, h⟩
  · exact Nat.lt_trans h (by norm_num)
  · exact h

lemma utf8Bytes_lt (c : Char) : ∀ b ∈ utf8Bytes c, b < 256 := by
  intro b hb
  have hc := char_toNat_lt c
  unfold utf8Bytes at hb
  split at hb
  · simp only [List.mem_singleton] at hb; omega
  · split at hb
    · have h1 : c.toNat / 64 < 32 := Nat.div_lt_of_lt_mul (by omega)
      have h2 : c.toNat % 64 < 64 := Nat.mod_lt _ (by omega)
      simp only [List.mem_cons, List.not_mem_nil, or_false] at hb
      rcases hb with rfl | rfl <;> omega
    · split at hb
      · have h1 : c.toNat / 4096 < 16 := Nat.div_lt_of_lt_mul (by omega)
        have h2 : c.toNat / 64 % 64 < 64 := Nat.mod_lt _ (by omega)
        have h3 : c.toNat % 64 < 64 := Nat.mod_lt _ (by omega)
        simp only [List.mem_cons, List.not_mem_nil, or_false] at hb
        rcases hb with rfl | rfl | rfl <;> omega
      · have h1 : c.toNat / 262144 < 8 := Nat.div_lt_of_lt_mul (by omega)
        have h2 : c.toNat / 4096 % 64 < 64 := Nat.mod_lt _ (by omega)
        have h3 : c.toNat / 64 % 64 < 64 := Nat.mod_lt _ (by omega)
        have h4 : c.toNat % 64 < 64 := Nat.mod_lt _ (by omega)
        simp only [List.mem_cons, List.not_mem_nil, or_false] at hb
        rcases hb with rfl | rfl | rfl | rfl <;> omega

lemma hexDigit_ne_bad : ∀ n, n < 16 → hexDigit n ≠ ' ' ∧ hexDigit n ≠ '"' := by
  decide

lemma quoteChar_no_bad (a : Char) : ∀ c ∈ quoteChar a, c ≠ ' ' ∧ c ≠ '"' := by
  intro c hc
  unfold quoteChar at hc
  by_cases h1 : alwaysSafe a = true
  · rw [if_pos h1] at hc
    simp only [List.mem_singleton] at hc
    subst hc
    constructor <;> rintro rfl <;> exact absurd h1 (by decide)
  · rw [if_neg h1] at hc
    by_cases h2 : (a == ' ') = true
    · rw [if_pos h2] at hc
      simp only [List.mem_singleton] at hc
      subst hc
      exact ⟨by decide, by decide⟩
    · rw [if_neg h2] at hc
      simp only [List.mem_flatMap] at hc
      obtain ⟨b, hb, hcb⟩ := hc
      have hblt := utf8Bytes_lt a b hb
      simp only [pctByte, List.mem_cons, List.not_mem_nil, or_false] at hcb
      rcases hcb with rfl | rfl | rfl
      · exact ⟨by decide, by decide⟩
      · exact hexDigit_ne_bad _ (Nat.div_lt_of_lt_mul (by omega))
      · exact hexDigit_ne_bad _ (Nat.mod_lt _ (by omega))

lemma quote_plus_no_bad (s : String) :
    ∀ c ∈ (quote_plus s).data, c ≠ ' ' ∧ c ≠ '"' := by
  intro c hc
  simp only [quote_plus, List.mem_flatMap] at hc
  obtain ⟨a, _, hmem⟩ := hc
  exact quoteChar_no_bad a c hmem

/-- C8 counterexample: in `build_google_query "Jane" "Doe" "State U"` not
every character of the term is percent-encoded — letters pass through
unencoded (and spaces become `+`), so the output is not made of `%XX`
escapes only. -/
theorem c8_counterexample :
    ¬ ∀ c ∈ (build_google_query "Jane" "Doe" "State U").data,
      percentEncodedChar c := by
  decide

/-- C8 (amended): the query builder is a pure function of
(first, last, school) producing `quote_plus` (empty safe set) of the term
`"<first> <last>" "<school>" site:instagram.com -site:instagram.com/p`:
ASCII alphanumerics and `_ . - ~` pass through, a space becomes `+`, and
every other character is percent-encoded — hence the output contains no
literal space and no literal quote character. -/
theorem c8_theorem (first last school : String) :
    build_google_query first last school =
      quote_plus ("\"" ++ first ++ " " ++ last ++ "\" \"" ++ school ++
        "\" site:instagram.com -site:instagram.com/p") ∧
    ∀ c ∈ (build_google_query first last school).data, c ≠ ' ' ∧ c ≠ '"' := by
  exact ⟨rfl, quote_plus_no_bad _⟩

/-- C8 witness: the amended statement instantiated at concrete names,
with the per-character guarantee discharged at the first letter of the
output. -/
theorem c8_witness :
    build_google_query "Jane" "Doe" "State U" =
      quote_plus
        "\"Jane Doe\" \"State U\" site:instagram.com -site:instagram.com/p" ∧
    ('J' ≠ ' ' ∧ 'J' ≠ '"') := by
  have h := c8_theorem "Jane" "Doe" "State U"
  exact ⟨h.1, h.2 'J' (by decide)⟩

lemma candidateOf_some {href q : String} (h : candidateOf href = some q) :
    listPrefixB "/url?".data href.data = true ∧ q = qParamOf href ∧
      substrB "instagram.com" q = true := by
  unfold candidateOf at h
  by_cases h1 : listPrefixB "/url?".data href.data = true
  · rw [if_pos h1] at h
    by_cases h2 : substrB "instagram.com" (qParamOf href) = true
    · rw [if_pos h2] at h
      cases h
      exact ⟨h1, rfl, h2⟩
    · rw [if_neg h2] at h
      cases h
  · rw [if_neg h1] at h
    cases h

lemma pgrAux_eq (hrefs : List String) :
    ∀ n, n < 5 → pgrAux hrefs n = (hrefs.filterMap candidateOf).take (5 - n) := by
  induction hrefs with
  | nil => intro n _; simp [pgrAux]
  | cons href rest ih =>
    intro n hn
    unfold pgrAux
    cases hcand : candidateOf href with
    | some q =>
      simp only [List.filterMap_cons, hcand]
      by_cases h5 : 5 ≤ n + 1
      · rw [if_pos h5, show 5 - n = 1 by omega]
        simp
      · rw [if_neg h5, ih (n + 1) (by omega), show 5 - n = (5 - (n + 1)) + 1 by omega,
          List.take_succ_cons]
    | none =>
      simp only [List.filterMap_cons, hcand]
      rw [if_neg (by omega)]
      exact ih n hn

/-- C7 (confirmed): over the ordered anchor-href list extracted from any
(possibly malformed) search-results HTML, `parse_google_results` returns
the first at most five candidates — each the decoded `q` query parameter
of an href beginning with `/url?` and containing `instagram.com` — in
first-seen page order; it is a total function (never raises) and returns
the empty list when the page yields no anchors. -/
theorem c7_theorem (hrefs : List String) :
    parse_google_results hrefs = (hrefs.filterMap candidateOf).take 5 ∧
    (parse_google_results hrefs).length ≤ 5 ∧
    (∀ q ∈ parse_google_results hrefs,
      substrB "instagram.com" q = true ∧
      ∃ href ∈ hrefs, listPrefixB "/url?".data href.data = true ∧
        candidateOf href = some q) ∧
    parse_google_results [] = [] := by
  have heq : parse_google_results hrefs = (hrefs.filterMap candidateOf).take 5 :=
    pgrAux_eq hrefs 0 (by omega)
  refine ⟨heq, ?_, ?_, rfl⟩
  · rw [heq]
    exact List.length_take_le 5 _
  · intro q hq
    rw [heq] at hq
    have hq2 : q ∈ hrefs.filterMap candidateOf := List.mem_of_mem_take hq
    obtain ⟨href, hhref, hcand⟩ := List.mem_filterMap.mp hq2
    obtain ⟨hpre, _, hsub⟩ := candidateOf_some hcand
    exact ⟨hsub, href, hhref, hpre, hcand⟩

/-- C7 witness: a concrete page with one redirect anchor yields exactly
its decoded `q` parameter. -/
theorem c7_witness :
    parse_google_results
        ["/url?q=https://www.instagram.com/janedoe/&sa=U", "/search?q=x"] =
      ["https://www.instagram.com/janedoe/"] ∧
    substrB "instagram.com" "https://www.instagram.com/janedoe/" = true := by
  have h := c7_theorem
    ["/url?q=https://www.instagram.com/janedoe/&sa=U", "/search?q=x"]
  refine ⟨?_, (h.2.2.1 "https://www.instagram.com/janedoe/" ?_).1⟩
  · rw [h.1]
    decide
  · rw [h.1]
    decide

/-- C5 (confirmed): when the rendering proxy answers 429 on every
request, `fetch_html` sleeps the exponentially doubling delay (seed 1)
after each of its two outer attempts, then falls back to exactly one
BrightData request and returns its body when that response is `ok`. -/
theorem c5_theorem (env : Env) (st : St) (url : String) (br : Response)
    (hkey : env.sbKey = true) (hbk : env.brightKey = true)
    (h429 : ∀ n, ∃ r, env.sb n = some r ∧ r.status_code = 429)
    (hbr : env.bright st.brN = some br) (hok : br.ok = true) :
    fetch_html env st url =
      (some br, ⟨st.sbN + 2, st.brN + 1⟩,
       [Event.sbCall url, Event.sleep 1, Event.sbCall url, Event.sleep 2,
        Event.brCall url]) := by
  obtain ⟨r1, hr1, hs1⟩ := h429 st.sbN
  obtain ⟨r2, hr2, hs2⟩ := h429 (st.sbN + 1)
  have hsb1 : fetch_scrapingbee env st url =
      (some r1, ⟨st.sbN + 1, st.brN⟩, [Event.sbCall url]) := by
    unfold fetch_scrapingbee sbRetry
    rw [if_pos hkey, hr1]
  have hsb2 : fetch_scrapingbee env ⟨st.sbN + 1, st.brN⟩ url =
      (some r2, ⟨st.sbN + 2, st.brN⟩, [Event.sbCall url]) := by
    unfold fetch_scrapingbee sbRetry
    rw [if_pos hkey]
    dsimp only
    rw [hr2]
  have hr1ne : (r1.status_code == 429) = true := by rw [hs1]; decide
  have hr2ne : (r2.status_code == 429) = true := by rw [hs2]; decide
  have hloop1 : fetchHtmlLoop env url 2 1 ⟨st.sbN + 1, st.brN⟩ =
      (none, ⟨st.sbN + 2, st.brN⟩, [Event.sbCall url, Event.sleep 2]) := by
    unfold fetchHtmlLoop
    rw [hsb2]
    dsimp only
    rw [if_pos hr2ne]
    rfl
  have hloop2 : fetchHtmlLoop env url 1 2 st =
      (none, ⟨st.sbN + 2, st.brN⟩,
       [Event.sbCall url, Event.sleep 1, Event.sbCall url, Event.sleep 2]) := by
    unfold fetchHtmlLoop
    rw [hsb1]
    dsimp only
    rw [if_pos hr1ne, hloop1]
    rfl
  unfold fetch_html
  rw [if_pos hkey, hloop2]
  dsimp only
  unfold fetch_bright
  rw [if_pos hbk]
  dsimp only
  rw [hbr]
  dsimp only
  rw [if_pos hok]
  rfl

/-- C5 witness: the concrete always-429 environment. -/
theorem c5_witness :
    fetch_html envC5 st0 "https://x" =
      (some ⟨200, "body", "u"⟩, ⟨2, 1⟩,
       [Event.sbCall "https://x", Event.sleep 1, Event.sbCall "https://x",
        Event.sleep 2, Event.brCall "https://x"]) :=
  c5_theorem envC5 st0 "https://x" ⟨200, "body", "u"⟩ rfl rfl
    (fun _ => ⟨⟨429, "", ""⟩, rfl, rfl⟩) rfl rfl

lemma validateResp_some {r : Response} {h stat canon : String}
    (hr : validateResp r = (some h, stat, canon)) :
    stat = "FOUND_PRIVATE" ∨ stat = "FOUND_VALID" := by
  unfold validateResp at hr
  split at hr
  · exact absurd (congrArg (fun t => t.1) hr) (by simp)
  · split at hr
    · exact absurd (congrArg (fun t => t.1) hr) (by simp)
    · have hstat : (if substrB "this account is private" (pyLower r.text)
          then "FOUND_PRIVATE" else "FOUND_VALID") = stat :=
        congrArg (fun t => t.2.1) hr
      split at hstat
      · exact Or.inl hstat.symm
      · exact Or.inr hstat.symm

lemma validate_profile_some {env : Env} {st : St} {url : String}
    {h stat canon : String} {st1 : St} {evs : List Event}
    (hr : validate_profile env st url = ((some h, stat, canon), st1, evs)) :
    stat = "FOUND_PRIVATE" ∨ stat = "FOUND_VALID" := by
  unfold validate_profile at hr
  dsimp only at hr
  split at hr
  · exact absurd (congrArg (fun t => t.1.1) hr) (by simp)
  · split at hr
    · exact absurd (congrArg (fun t => t.1.1) hr) (by simp)
    · exact validateResp_some (congrArg (fun t => t.1) hr)

lemma validateLoop_some (env : Env) (links : List String) :
    ∀ (st : St) {h stat canon : String} {st2 : St} {evs : List Event},
      validateLoop env links st = (some (h, stat, canon), st2, evs) →
      h ≠ "" ∧ (stat = "FOUND_PRIVATE" ∨ stat = "FOUND_VALID") := by
  induction links with
  | nil =>
    intro st h stat canon st2 evs hr
    exact absurd (congrArg (fun t => t.1) hr) (by simp [validateLoop])
  | cons link rest ih =>
    intro st h stat canon st2 evs hr
    unfold validateLoop at hr
    rcases hvp : validate_profile env st link with ⟨⟨hOpt, stat1, canon1⟩, st1, evs1⟩
    rw [hvp] at hr
    cases hOpt with
    | none =>
      dsimp only at hr
      have hres : (validateLoop env rest st1).1 = some (h, stat, canon) :=
        congrArg (fun t => t.1) hr
      rcases hrec : validateLoop env rest st1 with ⟨res, stx, evsx⟩
      rw [hrec] at hres
      exact ih st1 (by rw [hrec]; exact congrArg (fun o => (o, stx, evsx)) hres)
    | some hh =>
      dsimp only at hr
      by_cases hemp : (hh == "") = true
      · rw [if_pos hemp] at hr
        have hres : (validateLoop env rest st1).1 = some (h, stat, canon) :=
          congrArg (fun t => t.1) hr
        rcases hrec : validateLoop env rest st1 with ⟨res, stx, evsx⟩
        rw [hrec] at hres
        exact ih st1 (by rw [hrec]; exact congrArg (fun o => (o, stx, evsx)) hres)
      · rw [if_neg hemp] at hr
        have h1 : some (hh, stat1, canon1) = some (h, stat, canon) :=
          congrArg (fun t => t.1) hr
        have h2 := Option.some.inj h1
        have hhh : hh = h := congrArg (fun t => t.1) h2
        have hss : stat1 = stat := congrArg (fun t => t.2.1) h2
        subst hhh
        subst hss
        refine ⟨by simpa using hemp, validate_profile_some hvp⟩

/-- C1 counterexample: a pre-populated row whose status column is blank
short-circuits `process_row` and is appended with an empty status and a
non-empty handle, violating both halves of the claimed invariant. -/
theorem c1_counterexample : ¬ recordInvariant (process_row env0 st0 rowC1).1 := by
  decide

lemma recordInvariant_unresolved (a : Athlete) (s : String) (h4 : statusFour s)
    (hnf : s ≠ "FOUND_VALID") (hnp : s ≠ "FOUND_PRIVATE")
    (hempty : a.instagram_handle = "") :
    recordInvariant { a with status := s } := by
  refine ⟨h4, ?_⟩
  show a.instagram_handle ≠ "" ↔ (s = "FOUND_VALID" ∨ s = "FOUND_PRIVATE")
  constructor
  · intro hcon
    exact absurd hempty hcon
  · rintro (hx | hx)
    · exact absurd hx hnf
    · exact absurd hx hnp

lemma recordInvariant_found (a : Athlete) (h canon stat : String)
    (hne : h ≠ "") (hstat : stat = "FOUND_PRIVATE" ∨ stat = "FOUND_VALID") :
    recordInvariant
      { a with instagram_handle := h, profile_url := canon, status := stat } := by
  refine ⟨?_, iff_of_true hne hstat.symm⟩
  rcases hstat with h1 | h1
  · exact Or.inr (Or.inl h1)
  · exact Or.inl h1

/-- C1 (amended): for every record produced from a row without a truthy
pre-populated handle, the status is one of the four defined values and
the handle is non-empty iff the status is `FOUND_VALID` or
`FOUND_PRIVATE`.  (A pre-populated row instead carries its input
handle/URL/status through, so the invariant holds for it only when the
input already satisfies it.) -/
theorem c1_theorem (env : Env) (st : St) (row : Row)
    (hpre : truthy row.instagram_handle = false) :
    recordInvariant (process_row env st row).1 := by
  unfold process_row
  rw [if_neg (by simp [hpre])]
  dsimp only
  rcases hf : fetch_html env st (searchUrlOf row) with ⟨ropt, st1, evs⟩
  cases ropt with
  | none =>
    exact recordInvariant_unresolved (athleteOf row) "SEARCH_FAIL"
      (Or.inr (Or.inr (Or.inr rfl))) (by decide) (by decide) rfl
  | some resp =>
    dsimp only
    by_cases hok : (!resp.ok || resp.status_code != 200) = true
    · rw [if_pos hok]
      exact recordInvariant_unresolved (athleteOf row) "SEARCH_FAIL"
        (Or.inr (Or.inr (Or.inr rfl))) (by decide) (by decide) rfl
    · rw [if_neg hok]
      rcases hvl : validateLoop env (parse_google_results (env.anchors resp.text))
          st1 with ⟨res, st2, evs2⟩
      cases res with
      | none =>
        exact recordInvariant_unresolved (athleteOf row) "NOT_FOUND"
          (Or.inr (Or.inr (Or.inl rfl))) (by decide) (by decide) rfl
      | some trip =>
        rcases trip with ⟨h, stat, canon⟩
        obtain ⟨hne, hstat⟩ := validateLoop_some env _ st1 hvl
        exact recordInvariant_found (athleteOf row) h canon stat hne hstat

/-- C1 witness: the amended invariant at a concrete plain row under the
no-network environment. -/
theorem c1_witness : recordInvariant (process_row env0 st0 rowPlain).1 :=
  c1_theorem env0 st0 rowPlain rfl

/-- C2 counterexample: a pre-populated handle containing uppercase
letters is not carried through unchanged — the code lowercases it. -/
theorem c2_counterexample :
    rowC2.instagram_handle = some "JaneDoe" ∧
    (process_row env0 st0 rowC2).1.instagram_handle = "janedoe" ∧
    (process_row env0 st0 rowC2).1.instagram_handle ≠ "JaneDoe" := by
  decide

/-- C2 (amended): a row with a non-empty pre-populated handle
short-circuits `process_row`: the output record carries the input handle
lowercased, the input profile URL and status unchanged (defaulting to
`""` and `"FOUND_VALID"` when those columns are absent), the oracle
state is untouched and the trace is empty — no network call is made. -/
theorem c2_theorem (env : Env) (st : St) (row : Row) (h : String)
    (hh : row.instagram_handle = some h) (hne : h ≠ "") :
    process_row env st row =
      ({ athleteOf row with
          instagram_handle := pyLower h
          profile_url := row.profile_url.getD ""
          status := row.status.getD "FOUND_VALID" }, st, []) := by
  unfold process_row
  rw [if_pos (show truthy row.instagram_handle = true by
    rw [hh]; exact bne_iff_ne.mpr hne)]
  rw [hh]
  rfl

/-- C2 witness: the concrete uppercase-handle row. -/
theorem c2_witness :
    process_row env0 st0 rowC2 =
      ({ athleteOf rowC2 with
          instagram_handle := "janedoe",
          profile_url := "https://instagram.com/janedoe",
          status := "FOUND_VALID" }, st0, []) :=
  (c2_theorem env0 st0 rowC2 "JaneDoe" rfl (by decide)).trans (by decide)

lemma validateResp_markers (r : Response) :
    (¬ (substrB "property=\"og:type\"" (pyLower r.text) = true ∧
        substrB "content=\"profile\"" (pyLower r.text) = true) →
      validateResp r = (none, "NOT_FOUND", "")) ∧
    ((substrB "property=\"og:type\"" (pyLower r.text) = true ∧
      substrB "content=\"profile\"" (pyLower r.text) = true) →
      validateResp r = extractStage r) := by
  constructor <;> intro hm
  · unfold validateResp
    have hcond : (!substrB "property=\"og:type\"" (pyLower r.text) ||
        !substrB "content=\"profile\"" (pyLower r.text)) = true := by
      cases hA : substrB "property=\"og:type\"" (pyLower r.text)
      · simp
      · cases hB : substrB "content=\"profile\"" (pyLower r.text)
        · simp
        · exact absurd ⟨hA, hB⟩ hm
    rw [if_pos hcond]
  · obtain ⟨hA, hB⟩ := hm
    unfold validateResp extractStage
    rw [if_neg (by simp [hA, hB])]

/-- C3 counterexample: a fetched status-200 document containing the
`og:type` marker but lacking the `content="profile"` marker is rejected
with `(no handle, NOT_FOUND)` even though its final URL would yield the
handle — so containing one of the two markers does not let a document
pass the structural check. -/
theorem c3_counterexample :
    validate_profile envC3 st0 "https://instagram.com/janedoe" =
      ((none, "NOT_FOUND", ""), ⟨0, 1⟩,
       [Event.brCall "https://instagram.com/janedoe"]) ∧
    substrB "property=\"og:type\"" (pyLower docC3) = true ∧
    substrB "content=\"profile\"" (pyLower docC3) = false ∧
    igSearch "https://instagram.com/janedoe" = some "janedoe" := by
  decide

/-- C3 (amended): for a fetched status-200 document, the validator
returns `(no handle, NOT_FOUND)` at the structural stage exactly when at
least one of the two markers is missing; only a document containing BOTH
markers proceeds to handle extraction. -/
theorem c3_theorem (env : Env) (st : St) (url : String) (r : Response)
    (st1 : St) (evs : List Event)
    (hf : fetch_html env st url = (some r, st1, evs))
    (h200 : r.status_code = 200) :
    (¬ (substrB "property=\"og:type\"" (pyLower r.text) = true ∧
        substrB "content=\"profile\"" (pyLower r.text) = true) →
      validate_profile env st url = ((none, "NOT_FOUND", ""), st1, evs)) ∧
    ((substrB "property=\"og:type\"" (pyLower r.text) = true ∧
      substrB "content=\"profile\"" (pyLower r.text) = true) →
      validate_profile env st url = (extractStage r, st1, evs)) := by
  have hok : (!r.ok || r.status_code != 200) = false := by
    simp [Response.ok, h200]
  have hvp : validate_profile env st url = (validateResp r, st1, evs) := by
    unfold validate_profile
    rw [hf]
    dsimp only
    rw [hok]
    rfl
  constructor <;> intro hm
  · rw [hvp, (validateResp_markers r).1 hm]
  · rw [hvp, (validateResp_markers r).2 hm]

/-- C3 witness: a document with both markers proceeds to extraction and
yields the handle from the final URL. -/
theorem c3_witness :
    validate_profile envC3w st0 "https://instagram.com/janedoe" =
      (extractStage ⟨200, docProfile, "https://instagram.com/janedoe"⟩,
       ⟨0, 1⟩, [Event.brCall "https://instagram.com/janedoe"]) ∧
    extractStage ⟨200, docProfile, "https://instagram.com/janedoe"⟩ =
      (some "janedoe", "FOUND_VALID", "https://instagram.com/janedoe") := by
  constructor
  · exact (c3_theorem envC3w st0 "https://instagram.com/janedoe"
      ⟨200, docProfile, "https://instagram.com/janedoe"⟩ ⟨0, 1⟩
      [Event.brCall "https://instagram.com/janedoe"] (by decide) rfl).2
      (by decide)
  · decide

/-- C6 (confirmed): for a row without a pre-populated handle, when the
search fetch fails (`none`) or returns a non-200 status, the produced
record has status `SEARCH_FAIL` with empty handle and empty profile URL,
and the trace is exactly the search fetch's own trace — no candidate
validation is attempted. -/
theorem c6_theorem (env : Env) (st : St) (row : Row)
    (hpre : truthy row.instagram_handle = false)
    (hfail : ∀ r, (fetch_html env st (searchUrlOf row)).1 = some r →
      r.status_code ≠ 200) :
    process_row env st row =
      ({ athleteOf row with status := "SEARCH_FAIL" },
       (fetch_html env st (searchUrlOf row)).2.1,
       (fetch_html env st (searchUrlOf row)).2.2) := by
  unfold process_row
  rw [if_neg (by simp [hpre])]
  dsimp only
  rcases hf : fetch_html env st (searchUrlOf row) with ⟨ropt, st1, evs⟩
  cases ropt with
  | none => rfl
  | some resp =>
    dsimp only
    have hcond : (!resp.ok || resp.status_code != 200) = true := by
      have hne := hfail resp (by rw [hf])
      simp [bne_iff_ne, hne]
    rw [if_pos hcond]

/-- C6 witness: a redirect (301) search response at a concrete row. -/
theorem c6_witness :
    process_row envC6 st0 rowPlain =
      ({ athleteOf rowPlain with status := "SEARCH_FAIL" }, ⟨0, 1⟩,
       [Event.brCall (searchUrlOf rowPlain)]) := by
  have hfail : ∀ r, (fetch_html envC6 st0 (searchUrlOf rowPlain)).1 = some r →
      r.status_code ≠ 200 := by
    intro r hr
    have h0 : (fetch_html envC6 st0 (searchUrlOf rowPlain)).1 =
        some ⟨301, "moved", ""⟩ := by decide
    have h301 := Option.some.inj (h0.symm.trans hr)
    subst h301
    decide
  exact (c6_theorem envC6 st0 rowPlain rfl hfail).trans (by decide)

/-- C4: evaluation at the failing input.  With a DSN supplied, the
driver importable and the connection failing, the sink exception is not
caught (only a missing driver is): the run aborts after the first
athlete and the second is never processed.  The first two conjuncts
show the two cases the code does handle (missing driver is caught and
skipped; a working sink upserts), the last shows the connection failure
aborting the loop. -/
theorem c4_theorem :
    upsert_postgres false false = UpsertResult.skipped ∧
    mainLoopSink env0 ⟨true, false, false⟩ [] [rowC4a, rowC4b] st0 =
      ([(process_row env0 st0 rowC4a).1, (process_row env0 st0 rowC4b).1],
       false) ∧
    upsert_postgres true false = UpsertResult.raised ∧
    mainLoopSink env0 ⟨true, true, false⟩ [] [rowC4a, rowC4b] st0 =
      ([(process_row env0 st0 rowC4a).1], true) := by
  decide

lemma writesOf_nil : writesOf [] = [] := rfl

lemma writesOf_cons_ev (e : Event) (t : List Act) :
    writesOf (Act.ev e :: t) = writesOf t := rfl

lemma writesOf_cons_write (r : Athlete) (t : List Act) :
    writesOf (Act.write r :: t) = r :: writesOf t := rfl

lemma writesOf_append (l₁ l₂ : List Act) :
    writesOf (l₁ ++ l₂) = writesOf l₁ ++ writesOf l₂ := by
  simp [writesOf, List.filterMap_append]

lemma writesOf_map_ev (evs : List Event) : writesOf (evs.map Act.ev) = [] := by
  induction evs with
  | nil => rfl
  | cons e t ih => simpa [writesOf_cons_ev] using ih

lemma writesOf_rowActs (env : Env) (st : St) (row : Row) :
    writesOf (rowActs env st row) = [(process_row env st row).1] := by
  rw [rowActs, writesOf_append, writesOf_map_ev]
  rfl

lemma process_row_id (env : Env) (st : St) (row : Row) :
    (process_row env st row).1.athlete_id = row.athlete_id := by
  unfold process_row
  split
  · rfl
  · dsimp only
    rcases hf : fetch_html env st (searchUrlOf row) with ⟨ropt, st1, evs⟩
    cases ropt with
    | none => rfl
    | some resp =>
      dsimp only
      split
      · rfl
      · rcases hvl : validateLoop env (parse_google_results (env.anchors resp.text))
            st1 with ⟨res, st2, evs2⟩
        cases res with
        | none => rfl
        | some trip => rfl

lemma runRecords_covers (env : Env) (done : List Int) :
    ∀ (rows : List Row) (st : St), ∀ row ∈ rows,
      row.athlete_id ∈ done ∨
      ∃ a ∈ runRecords env done rows st, a.athlete_id = row.athlete_id := by
  intro rows
  induction rows with
  | nil => intro st row hrow; cases hrow
  | cons r rest ih =>
    intro st row hrow
    by_cases hmem : r.athlete_id ∈ done
    · rcases List.mem_cons.mp hrow with rfl | htail
      · exact Or.inl hmem
      · rcases ih st row htail with h | ⟨a, ha, hid⟩
        · exact Or.inl h
        · refine Or.inr ⟨a, ?_, hid⟩
          unfold runRecords runActs
          rw [if_pos hmem]
          exact ha
    · rcases List.mem_cons.mp hrow with rfl | htail
      · refine Or.inr ⟨(process_row env st row).1, ?_, process_row_id env st row⟩
        unfold runRecords runActs
        rw [if_neg hmem, writesOf_append, writesOf_rowActs]
        exact List.mem_append_left _ (List.mem_singleton.mpr rfl)
      · rcases ih ((process_row env st r).2.1) row htail with h | ⟨a, ha, hid⟩
        · exact Or.inl h
        · refine Or.inr ⟨a, ?_, hid⟩
          unfold runRecords runActs
          rw [if_neg hmem, writesOf_append]
          exact List.mem_append_right _ ha

lemma runActs_skips_all (env : Env) (done : List Int) :
    ∀ (rows : List Row) (st : St), (∀ row ∈ rows, row.athlete_id ∈ done) →
      runActs env done rows st = [] := by
  intro rows
  induction rows with
  | nil => intro st _; rfl
  | cons r rest ih =>
    intro st hall
    unfold runActs
    rw [if_pos (hall r (List.mem_cons_self r rest))]
    exact ih st (fun row hrow => hall row (List.mem_cons_of_mem r hrow))

/-- C10 (confirmed): every processed athlete's record is appended
regardless of outcome (its id appears among the output records), so in
any subsequent run whose resume set is the ids of that output, every
input row is skipped: the second run performs no action at all — no
fetch, no append — whatever its network environment. -/
theorem c10_theorem (env1 env2 : Env) (rows : List Row) (st1 st2 : St) :
    (∀ row ∈ rows, ∃ a ∈ runRecords env1 [] rows st1,
      a.athlete_id = row.athlete_id) ∧
    runActs env2 ((runRecords env1 [] rows st1).map (fun a => a.athlete_id))
      rows st2 = [] := by
  have hcov : ∀ row ∈ rows, ∃ a ∈ runRecords env1 [] rows st1,
      a.athlete_id = row.athlete_id := by
    intro row hrow
    rcases runRecords_covers env1 [] rows st1 row hrow with h | h
    · cases h
    · exact h
  refine ⟨hcov, runActs_skips_all env2 _ rows st2 ?_⟩
  intro row hrow
  obtain ⟨a, ha, hid⟩ := hcov row hrow
  exact List.mem_map.mpr ⟨a, ha, hid⟩

/-- C10 witness: a one-row run under the no-network environment. -/
theorem c10_witness :
    (∃ a ∈ runRecords env0 [] [rowPlain] st0,
      a.athlete_id = rowPlain.athlete_id) ∧
    runActs env0 ((runRecords env0 [] [rowPlain] st0).map
      (fun a => a.athlete_id)) [rowPlain] st0 = [] := by
  have h := c10_theorem env0 env0 [rowPlain] st0 st0
  exact ⟨h.1 rowPlain (List.mem_singleton.mpr rfl), h.2⟩

/-- C9 counterexample: under the redirect environment, an interrupt
delivered after the first atomic action — the already-issued search
fetch, i.e. mid-athlete — leaves the output empty, although the
uninterrupted run appends that athlete's (SEARCH_FAIL) record: the
athlete whose processing has started is abandoned, not completed and
appended as claimed. -/
theorem c9_counterexample :
    (runActs envC6 [] [rowPlain] st0).take 1 =
      [Act.ev (Event.brCall (searchUrlOf rowPlain))] ∧
    runInterrupted envC6 [] [rowPlain] st0 1 = [] ∧
    runRecords envC6 [] [rowPlain] st0 =
      [{ athleteOf rowPlain with status := "SEARCH_FAIL" }] := by
  decide

lemma writesOf_take (l : List Act) :
    ∀ n, ∃ k, writesOf (l.take n) = (writesOf l).take k := by
  induction l with
  | nil => intro n; exact ⟨0, by simp [writesOf]⟩
  | cons a t ih =>
    intro n
    cases n with
    | zero => exact ⟨0, by simp [writesOf]⟩
    | succ m =>
      obtain ⟨k, hk⟩ := ih m
      cases a with
      | write r =>
        refine ⟨k + 1, ?_⟩
        rw [List.take_succ_cons, writesOf_cons_write, writesOf_cons_write,
          List.take_succ_cons, hk]
      | ev e =>
        refine ⟨k, ?_⟩
        rw [List.take_succ_cons, writesOf_cons_ev, writesOf_cons_ev, hk]

/-- C9 (amended): an interrupt raises `GracefulExit` at the point of
delivery and the loop's handler exits there: only the actions before
the boundary execute (so no later athlete's search fetch is issued),
the appended records always form a prefix of the uninterrupted run's
records — never a partial or out-of-order record — and an interrupt
arriving at or after the end of the run leaves the full output; but an
athlete still mid-processing is abandoned without its record. -/
theorem c9_theorem (env : Env) (done : List Int) (rows : List Row) (st : St)
    (n : Nat) :
    (∃ k, runInterrupted env done rows st n =
      (runRecords env done rows st).take k) ∧
    ((runActs env done rows st).length ≤ n →
      runInterrupted env done rows st n = runRecords env done rows st) := by
  constructor
  · exact writesOf_take (runActs env done rows st) n
  · intro hlen
    unfold runInterrupted runRecords
    rw [List.take_of_length_le hlen]

/-- C9 witness: interrupt boundaries at and beyond the end of a
one-row run. -/
theorem c9_witness :
    (∃ k, runInterrupted envC6 [] [rowPlain] st0 2 =
      (runRecords envC6 [] [rowPlain] st0).take k) ∧
    runInterrupted envC6 [] [rowPlain] st0 5 =
      runRecords envC6 [] [rowPlain] st0 := by
  have h2 := c9_theorem envC6 [] [rowPlain] st0 2
  have h5 := c9_theorem envC6 [] [rowPlain] st0 5
  exact ⟨h2.1, h5.2 (by decide)⟩

end IgScraper

